import Mathlib

/-!
Verification of the DiffUtils repository (a Python line-diff/patch library)
against its natural-language specification.

The development shallowly embeds the code of `diffutils/core.py`,
`diffutils/myers.py`, `diffutils/engine.py`, `diffutils/api.py` and
`diffutils/output.py`.  Python sequences become Lean lists, Python ints become
`Int`, mutation becomes explicit state passing, and fallible operations return
`Except PyErr`.  Python exceptions (IndexError, ValueError, TypeError,
AssertionError, PatchFailedException, PatchFormatError) are constructors of
`PyErr`; exception messages are carried where a claim depends on them, with
f-string payloads represented structurally.

Two dynamic-dispatch errors in the source are modelled as the exceptions they
raise at runtime, at the definition they concern:
* `myers.build_revision` writes `chunk.size()` although `core.Chunk.size` is a
  property: `chunk.size` is already an `int`, and calling it raises TypeError
  on every execution of the delta-emitting loop body, so `myers.diff` returns
  a patch only when that loop body never runs - and every patch it returns is
  empty.
* `output.generate_unified_diff` calls `patch.get_deltas()` although
  `core.Patch` (whose `__slots__` is `_deltas`) exposes the deltas only
  through the `deltas` property, so the emitter raises AttributeError before
  emitting any line.
All other behaviour - including several genuine bugs - is modelled as written.
-/

set_option linter.unusedVariables false

namespace DU

/-- Python values appearing in this embedding: the diffed elements are
strings, and some code paths (`list.remove` in the `restore` methods) compare
sequence elements against Python integers, so the value universe carries both. -/
inductive PyVal where
  | vs : String → PyVal
  | vi : Int → PyVal
deriving DecidableEq, Repr

/-- Python exceptions raised by the modelled code. -/
inductive PyErr where
  | patchFailed (msg : String)
  | patchFailedMismatch (index : Int) (expected actual : PyVal)
  | indexError
  | valueError (msg : String)
  | typeError
  | attributeError
  | assertionError
  | runtimeError (msg : String)
  | formatError (msg : String) (lineNumber : Int) (line : String)
deriving DecidableEq, Repr

/-! ### Python sequence primitives -/

/-- Resolve a Python sequence index: negative indices count from the end,
out-of-range indices resolve to `none` (an IndexError). -/
def pyResolveIdx (len : Nat) (idx : Int) : Option Nat :=
  if 0 ≤ idx ∧ idx < (len : Int) then some idx.toNat
  else if -(len : Int) ≤ idx ∧ idx < 0 then some (idx + len).toNat
  else none

/-- Python `seq[idx]`. -/
def pyGetIdx {α : Type} (l : List α) (idx : Int) : Except PyErr α :=
  match pyResolveIdx l.length idx with
  | some t =>
    match l.get? t with
    | some v => .ok v
    | none => .error .indexError
  | none => .error .indexError

/-- Resolve one bound of a Python slice `l[lo:hi]` (clamped, never failing). -/
def pySliceBound (len : Nat) (b : Int) : Nat :=
  if b < 0 then (max 0 (b + len)).toNat else min b.toNat len

/-- Python `l[lo:hi]`. -/
def pySlice {α : Type} (l : List α) (lo hi : Int) : List α :=
  (l.take (pySliceBound l.length hi)).drop (pySliceBound l.length lo)

/-- Python `l.insert(idx, v)` (clamps out-of-range indices). -/
def pyInsert {α : Type} (l : List α) (idx : Int) (v : α) : List α :=
  let t := if idx < 0 then (max 0 (idx + l.length)).toNat else min idx.toNat l.length
  l.take t ++ v :: l.drop t

/-- Python `del l[idx]`. -/
def pyDelAt {α : Type} (l : List α) (idx : Int) : Except PyErr (List α) :=
  match pyResolveIdx l.length idx with
  | some t => .ok (l.take t ++ l.drop (t + 1))
  | none => .error .indexError

/-- Python `l.remove(v)`: removes the first occurrence of the value `v`,
raising ValueError when `v` does not occur. -/
def pyRemove {α : Type} [DecidableEq α] (l : List α) (v : α) :
    Except PyErr (List α) :=
  match l with
  | [] => .error (.valueError "list.remove: x not in list")
  | x :: xs =>
    if x = v then .ok xs
    else
      match pyRemove xs v with
      | .ok r => .ok (x :: r)
      | .error e => .error e

/-- Python `range(lo, hi)` as a list of `Int`. -/
def intRange (lo hi : Int) : List Int :=
  (List.range (hi - lo).toNat).map (fun t => lo + (t : Int))

/-! ### `diffutils/core.py`: Chunk -/

/-- `core.Chunk`: a position in the host sequence together with the affected
lines.  Equality compares position and lines, exactly as `Chunk.__eq__`. -/
structure Chunk where
  position : Int
  lines : List PyVal
deriving DecidableEq, Repr

/-- `core.Chunk.size` (a property returning `len(self.lines)`). -/
def Chunk.size (c : Chunk) : Nat := c.lines.length

/-- `core.Chunk.last`: `position + size - 1`. -/
def Chunk.last (c : Chunk) : Int := c.position + (c.size : Int) - 1

/-- The element-comparison loop of `core.Chunk.verify`. -/
def Chunk.verifyLoop (target : List PyVal) (position : Int) :
    Nat → List PyVal → Except PyErr Unit
  | _, [] => .ok ()
  | offset, expected :: rest => do
    let index : Int := position + (offset : Int)
    let actual ← pyGetIdx target index
    if actual = expected then Chunk.verifyLoop target position (offset + 1) rest
    else .error (.patchFailedMismatch index expected actual)

/-- `core.Chunk.verify`: note the source compares `self.last() > len(target)`
(not `>= `), so an anchor whose last index equals `len(target)` passes the
guard and the loop then indexes past the end of the target. -/
def Chunk.verify (c : Chunk) (target : List PyVal) : Except PyErr Unit :=
  if c.last > (target.length : Int) then
    .error (.patchFailed "Incorrect Chunk: the position of chunk > target size")
  else Chunk.verifyLoop target c.position 0 c.lines

/-! ### `diffutils/core.py`: Delta -/

/-- The three delta variants of `core.Delta.Type`. -/
inductive DeltaType where
  | change
  | delete
  | insert
deriving DecidableEq, Repr

/-- A delta: `core.ChangeDelta` / `core.DeleteDelta` / `core.InsertDelta`.
`Delta.__eq__` compares the tag and both chunks, which is the derived
structural equality. -/
structure Delta where
  type : DeltaType
  original : Chunk
  revised : Chunk
deriving DecidableEq, Repr

/-- The `verify` method of the concrete delta classes. -/
def Delta.verify (d : Delta) (target : List PyVal) : Except PyErr Unit :=
  match d.type with
  | .change => do
    d.original.verify target
    if d.original.position > (target.length : Int) then
      .error (.patchFailed "Incorrect patch for delta: delta original position > target size")
    else .ok ()
  | .delete => d.original.verify target
  | .insert =>
    if d.original.position > (target.length : Int) then
      .error (.patchFailed "Incorrect patch for delta: delta original position > target size")
    else .ok ()

/-- `for i in range(n): del target[position]`. -/
def pyDelTimes (l : List PyVal) (position : Int) : Nat → Except PyErr (List PyVal)
  | 0 => .ok l
  | n + 1 => do
    let l' ← pyDelAt l position
    pyDelTimes l' position n

/-- `i = 0; for line in lines: target.insert(position + i, line); i += 1`. -/
def pyInsertLines (position : Int) : Nat → List PyVal → List PyVal → List PyVal
  | _, l, [] => l
  | i, l, x :: xs => pyInsertLines position (i + 1) (pyInsert l (position + (i : Int)) x) xs

/-- The `apply_to` methods of the delta classes (each verifies, then splices). -/
def Delta.apply_to (d : Delta) (target : List PyVal) : Except PyErr (List PyVal) :=
  match d.type with
  | .change => do
    d.verify target
    let t1 ← pyDelTimes target d.original.position d.original.size
    .ok (pyInsertLines d.original.position 0 t1 d.revised.lines)
  | .delete => do
    d.verify target
    pyDelTimes target d.original.position d.original.size
  | .insert => do
    d.verify target
    .ok (pyInsertLines d.original.position 0 target d.revised.lines)

/-- `ChangeDelta.restore`'s removal loop: `for i in range(size): target.remove(i)` -
the source removes the first occurrence of the integer VALUE `i`
(the loop counter), not the element at an index. -/
def pyRemoveCounter (l : List PyVal) : Nat → Nat → Except PyErr (List PyVal)
  | _, 0 => .ok l
  | i, n + 1 => do
    let l' ← pyRemove l (PyVal.vi (i : Int))
    pyRemoveCounter l' (i + 1) n

/-- `InsertDelta.restore`'s removal loop: `for i in range(size):
target.remove(position)` - removes the first occurrence of the integer VALUE
`position`, `size` times. -/
def pyRemoveValueTimes (l : List PyVal) (v : PyVal) : Nat → Except PyErr (List PyVal)
  | 0 => .ok l
  | n + 1 => do
    let l' ← pyRemove l v
    pyRemoveValueTimes l' v n

/-- The `restore` methods of the delta classes.  None of them calls `verify`. -/
def Delta.restore (d : Delta) (target : List PyVal) : Except PyErr (List PyVal) :=
  match d.type with
  | .change => do
    let t1 ← pyRemoveCounter target 0 d.revised.size
    .ok (pyInsertLines d.revised.position 0 t1 d.original.lines)
  | .delete =>
    .ok (pyInsertLines d.revised.position 0 target d.original.lines)
  | .insert =>
    pyRemoveValueTimes target (PyVal.vi d.revised.position) d.revised.size

/-! ### `diffutils/core.py`: Patch -/

/-- The internal `_deltas` container of `core.Patch`: a plain list before the
first read of the `deltas` property, a (sorted) tuple afterwards.  Python's
`list == tuple` is always `False`, so the tag participates in equality. -/
inductive DeltaContainer where
  | lst : List Delta → DeltaContainer
  | tup : List Delta → DeltaContainer
deriving DecidableEq, Repr

/-- `core.Patch`.  The single slot is the `_deltas` container. -/
structure Patch where
  deltasRep : DeltaContainer
deriving DecidableEq, Repr

/-- The sort order used by `Patch.deltas`:
`deltas.sort(key=operator.attrgetter('original.position'))`. -/
def sortKeyLE (a b : Delta) : Prop :=
  a.original.position ≤ b.original.position

instance : DecidableRel sortKeyLE := fun a b =>
  inferInstanceAs (Decidable (a.original.position ≤ b.original.position))

instance : IsTotal Delta sortKeyLE :=
  ⟨fun a b => Int.le_total a.original.position b.original.position⟩

instance : IsTrans Delta sortKeyLE :=
  ⟨fun _ _ _ h1 h2 => Int.le_trans h1 h2⟩

/-- `Patch()`: a fresh patch holds an empty list. -/
def Patch.empty : Patch := ⟨.lst []⟩

/-- `Patch.add_delta`: appends; a tuple container is first copied back to a
list. -/
def Patch.add_delta (p : Patch) (d : Delta) : Patch :=
  match p.deltasRep with
  | .lst l => ⟨.lst (l ++ [d])⟩
  | .tup l => ⟨.lst (l ++ [d])⟩

/-- The `Patch.deltas` property: on a list container it sorts (stably, by
`original.position`) and caches the result as a tuple; on a tuple container it
returns the stored tuple unchanged.  Python's `list.sort` is stable, and a
stable sort's output is uniquely determined, so `List.insertionSort` (also
stable) is an exact model.  Returns the value together with the mutated
patch. -/
def Patch.readDeltas : Patch → List Delta × Patch
  | ⟨.lst l⟩ =>
    let s := List.insertionSort sortKeyLE l
    (s, ⟨.tup s⟩)
  | ⟨.tup l⟩ => (l, ⟨.tup l⟩)

/-- `Patch.__eq__`: compares the raw `_deltas` containers (`other._deltas ==
self._deltas`), so a list never equals a tuple. -/
def Patch.pyEq (p q : Patch) : Bool :=
  match p.deltasRep, q.deltasRep with
  | .lst a, .lst b => decide (a = b)
  | .tup a, .tup b => decide (a = b)
  | _, _ => false

/-- `Patch.apply_to`: copies the target and applies the deltas in reverse
sorted order. -/
def Patch.apply_to (p : Patch) (target : List PyVal) : Except PyErr (List PyVal) :=
  p.readDeltas.1.reverse.foldlM (fun acc d => d.apply_to acc) target

/-- `Patch.restore`: copies the target and restores the deltas in reverse
sorted order. -/
def Patch.restore (p : Patch) (target : List PyVal) : Except PyErr (List PyVal) :=
  p.readDeltas.1.reverse.foldlM (fun acc d => d.restore acc) target

/-! ### `diffutils/myers.py`: path nodes -/

/-- `myers.DiffNode`: either a snake or a plain diff node.  A snake's
`lastSnake` is itself, so only diff nodes store the memoised field. -/
inductive PathNode where
  | snake : Int → Int → Option PathNode → PathNode
  | dnode : Int → Int → Option PathNode → Option PathNode → PathNode

def PathNode.i : PathNode → Int
  | .snake i _ _ => i
  | .dnode i _ _ _ => i

def PathNode.j : PathNode → Int
  | .snake _ j _ => j
  | .dnode _ j _ _ => j

def PathNode.prevF : PathNode → Option PathNode
  | .snake _ _ p => p
  | .dnode _ _ p _ => p

def PathNode.isSnake : PathNode → Bool
  | .snake _ _ _ => true
  | .dnode _ _ _ _ => false

/-- The `lastSnake` attribute: a snake's is itself (`create_snake` sets
`snake.lastSnake = snake`), a diff node's is its stored field. -/
def PathNode.lastSnakeF : PathNode → Option PathNode
  | .snake i j p => some (.snake i j p)
  | .dnode _ _ _ ls => ls

/-- A depth measure on the `prev` chain, used as loop fuel for the backtrack. -/
def PathNode.depth : PathNode → Nat
  | .snake _ _ none => 0
  | .snake _ _ (some p) => p.depth + 1
  | .dnode _ _ none _ => 0
  | .dnode _ _ (some p) _ => p.depth + 1

/-- `myers.create_snake`. -/
def create_snake (i j : Int) (prev : Option PathNode) : PathNode :=
  .snake i j prev

/-- `myers.create_diff_node`: `prev = prev.lastSnake; node.prev = prev;
node.lastSnake = None if i < 0 or j < 0 else prev.lastSnake`.  Reading
`None.lastSnake` is an AttributeError. -/
def create_diff_node (i j : Int) (prev : PathNode) : Except PyErr PathNode :=
  let p := prev.lastSnakeF
  if i < 0 ∨ j < 0 then .ok (.dnode i j p none)
  else
    match p with
    | none => .error .attributeError
    | some q => .ok (.dnode i j (some q) q.lastSnakeF)

/-! ### `diffutils/myers.py`: build_path -/

/-- The snake-extension loop of `build_path`:
`while i < N and j < M and original[i] == revised[j]: i += 1; j += 1`.
The fuel is an upper bound on the iteration count (each step increases `i`
below the bound `N`, and `i` is non-negative at every call site), so the
fuel-exhaustion error is unreachable from `build_path`. -/
def snakeExtendF (A B : List PyVal) : Nat → Int → Int → Except PyErr (Int × Int)
  | 0, i, j =>
    if i < (A.length : Int) ∧ j < (B.length : Int) then
      pyGetIdx A i >>= fun a =>
      pyGetIdx B j >>= fun b =>
      if a = b then .error (.runtimeError "snake extension fuel exhausted")
      else .ok (i, j)
    else .ok (i, j)
  | n + 1, i, j =>
    if i < (A.length : Int) ∧ j < (B.length : Int) then
      pyGetIdx A i >>= fun a =>
      pyGetIdx B j >>= fun b =>
      if a = b then snakeExtendF A B n (i + 1) (j + 1)
      else .ok (i, j)
    else .ok (i, j)

/-- `diagonal[idx]` (entries may be `None`). -/
def getEntry (diag : List (Option PathNode)) (idx : Int) :
    Except PyErr (Option PathNode) :=
  match pyResolveIdx diag.length idx with
  | some t =>
    match diag.get? t with
    | some e => .ok e
    | none => .error .indexError
  | none => .error .indexError

/-- `diagonal[idx].i`-style access: a `None` entry gives an AttributeError. -/
def getNode (diag : List (Option PathNode)) (idx : Int) : Except PyErr PathNode := do
  match ← getEntry diag idx with
  | some n => .ok n
  | none => .error .attributeError

/-- `diagonal[idx] = v`. -/
def setEntry (diag : List (Option PathNode)) (idx : Int) (v : Option PathNode) :
    Except PyErr (List (Option PathNode)) :=
  match pyResolveIdx diag.length idx with
  | some t => .ok (diag.set t v)
  | none => .error .indexError

/-- One iteration of the inner `k`-loop of `myers.build_path`: choose the
predecessor diagonal, invalidate `diagonal[kminus]`, create the diff node,
extend the snake, store the node, and test for termination. -/
def kstep (A B : List PyVal) (middle : Nat) (d : Nat) (k : Int)
    (diag : List (Option PathNode)) :
    Except PyErr (List (Option PathNode) × Option PathNode) := do
  let kmiddle : Int := (middle : Int) + k
  let kplus : Int := kmiddle + 1
  let kminus : Int := kmiddle - 1
  let takeDown ←
    if k = -(d : Int) then pure true
    else if k ≠ (d : Int) then do
      let nm ← getNode diag kminus
      let np ← getNode diag kplus
      pure (decide (nm.i < np.i))
    else pure false
  let (i, prev) ←
    if takeDown then do
      let np ← getNode diag kplus
      pure (np.i, np)
    else do
      let nm ← getNode diag kminus
      pure (nm.i + 1, nm)
  let diag1 ← setEntry diag kminus none
  let j := i - k
  let node ← create_diff_node i j prev
  let (i', j') ← snakeExtendF A B (A.length + B.length + 2) i j
  let node' := if node.i < i' then create_snake i' j' (some node) else node
  let diag2 ← setEntry diag1 kmiddle (some node')
  if (A.length : Int) ≤ i' ∧ (B.length : Int) ≤ j' then .ok (diag2, some node')
  else .ok (diag2, none)

/-- The `k`-loop (`k` from `-d` to `d` in steps of 2; the fuel `d + 1` is the
exact iteration count, so exhaustion is unreachable). -/
def kloopF (A B : List PyVal) (middle d : Nat) :
    Nat → Int → List (Option PathNode) →
    Except PyErr (List (Option PathNode) ⊕ PathNode)
  | fuel, k, diag =>
    if (d : Int) < k then .ok (.inl diag)
    else
      match fuel with
      | 0 => .error (.runtimeError "k loop fuel exhausted")
      | n + 1 => do
        let r ← kstep A B middle d k diag
        match r.2 with
        | some node => .ok (.inr node)
        | none => kloopF A B middle d n (k + 2) r.1

/-- The `d`-loop (`for d in range(max_size)`); falling off the end raises
`RuntimeError("couldn't find a diff path")`. -/
def dloopF (A B : List PyVal) (middle : Nat) :
    Nat → Nat → List (Option PathNode) → Except PyErr PathNode
  | 0, _, _ => .error (.runtimeError "could not find a diff path")
  | fuel + 1, d, diag => do
    match ← kloopF A B middle d (d + 1) (-(d : Int)) diag with
    | .inr node => .ok node
    | .inl diag' => do
      let diag'' ← setEntry diag' ((middle : Int) + (d : Int) - 1) none
      dloopF A B middle fuel (d + 1) diag''

/-- `myers.build_path`. -/
def build_path (A B : List PyVal) : Except PyErr PathNode := do
  let maxSize := A.length + B.length + 1
  let size := 1 + 2 * maxSize
  let middle := size / 2
  let diag0 : List (Option PathNode) := List.replicate size none
  let diag ← setEntry diag0 ((middle : Int) + 1) (some (create_snake 0 (-1) none))
  dloopF A B middle maxSize 0 diag

/-! ### `diffutils/myers.py`: build_revision -/

/-- The delta classification of `build_revision`.  The source tests
`original_chunk.size() is 0` - but `core.Chunk.size` is a `@property`, so
`original_chunk.size` is already an `int` and calling it raises
TypeError (an int is not callable) before any delta is built, on every
execution of the loop body that reaches this test. -/
def classifyDelta (oc rc : Chunk) : Except PyErr Delta :=
  .error .typeError

/-- The `while` loop of `build_revision`, walking the backtrack chain.
The loop stops when the path (or its predecessor) runs out or when the
predecessor's `j` is negative; a snake inside the loop raises
`ValueError("Found snake when looking for diff")`.  The fuel bounds the chain
depth (`depth + 1` at the call site), so exhaustion is unreachable. -/
def brLoopF (A B : List PyVal) :
    Nat → Option PathNode → List Delta → Except PyErr (List Delta)
  | _, none, acc => .ok acc
  | _, some (.snake _ _ none), acc => .ok acc
  | _, some (.dnode _ _ none _), acc => .ok acc
  | _, some (.snake _ _ (some pv)), acc =>
    if pv.j < 0 then .ok acc
    else .error (.valueError "Found snake when looking for diff")
  | fuel, some (.dnode i j (some pv) _), acc =>
    if pv.j < 0 then .ok acc
    else
      match fuel with
      | 0 => .error (.runtimeError "revision loop fuel exhausted")
      | f + 1 =>
        classifyDelta ⟨pv.i, pySlice A pv.i i⟩ ⟨pv.j, pySlice B pv.j j⟩ >>= fun d =>
        brLoopF A B f (if pv.isSnake then pv.prevF else some pv) (acc ++ [d])

/-- `myers.build_revision`: skip a leading snake, then walk the chain emitting
one delta per diff node; deltas are appended to a fresh `Patch`, whose
container is therefore a list in emission (descending-position) order. -/
def build_revision (path : PathNode) (A B : List PyVal) : Except PyErr Patch := do
  let start := if path.isSnake then path.prevF else some path
  let L ← brLoopF A B (path.depth + 1) start []
  .ok ⟨.lst L⟩

/-- `myers.diff`: Myers search followed by backtracking into a patch. -/
def myersDiff (original revised : List PyVal) : Except PyErr Patch := do
  let path ← build_path original revised
  build_revision path original revised

/-! ### `diffutils/engine.py` -/

/-- `engine.DiffEngine.diff_chunks`: diff the chunk contents, then shift every
delta's positions by the chunk anchors.  The abstract `self.diff` is the
engine's Myers implementation; the default engine instance lives in
`diffutils/_myers.py`, which is not part of this snapshot, so the in-repo
Myers implementation (`diffutils/myers.py`, modelled above) is used as the
engine's diff. -/
def engineDiffChunks (oc rc : Chunk) : Except PyErr (List Delta) := do
  let p ← myersDiff oc.lines rc.lines
  let ds := p.readDeltas.1
  .ok (ds.map fun d =>
    ⟨d.type, ⟨d.original.position + oc.position, d.original.lines⟩,
      ⟨d.revised.position + rc.position, d.revised.lines⟩⟩)

/-- `api.diff` (for list inputs): run the default engine, then
`if not patch.deltas: return None` - an empty patch is turned into `None`. -/
def apiDiff (original revised : List PyVal) : Except PyErr (Option Patch) := do
  let p ← myersDiff original revised
  let (ds, p') := p.readDeltas
  if ds.isEmpty then .ok none else .ok (some p')

/-! ### String helpers for the unified-diff emitter and parser -/

/-- Python `'\n' in line`. -/
def strHasNl (s : String) : Bool :=
  s.data.any (fun c => c = '\n')

/-- Python `line.startswith("+++")`. -/
def startsWithPluses (s : String) : Bool :=
  match s.data with
  | '+' :: '+' :: '+' :: _ => true
  | _ => false

/-- ASCII whitespace for the regex `\s` (the inputs here contain no exotic
unicode whitespace). -/
def isPySpace (c : Char) : Bool :=
  c == ' ' || c == '\t' || c == '\n' || c == '\r' || c == '\x0b' || c == '\x0c'

/-- Consume a maximal run of whitespace, returning its length and the rest. -/
def takeSpaces : List Char → Nat × List Char
  | [] => (0, [])
  | c :: rest =>
    if isPySpace c then
      let (n, r) := takeSpaces rest
      (n + 1, r)
    else (0, c :: rest)

/-- Consume a maximal run of ASCII digits. -/
def takeDigits : List Char → List Char × List Char
  | [] => ([], [])
  | c :: rest =>
    if c.isDigit then
      let (ds, r) := takeDigits rest
      (c :: ds, r)
    else ([], c :: rest)

def digitsToNat (l : List Char) : Nat :=
  l.foldl (fun a c => a * 10 + (c.toNat - 48)) 0

/-- Parse the optional `,(\d+)` group after a line number. -/
def takeOptCount (l : List Char) : Option Nat × List Char :=
  match l with
  | ',' :: rest =>
    let (ds, r) := takeDigits rest
    if ds = [] then (none, ',' :: rest) else (some (digitsToNat ds), r)
  | _ => (none, l)

/-- The hunk-header regex of `api.py`:
`^@@\s+-(?:(\d+)(?:,(\d+))?)\s+\+(?:(\d+)(?:,(\d+))?)\s+@@$`, where the
final `$` also matches just before one trailing newline. -/
def matchHunkHeaderCore (l : List Char) : Option (Nat × Option Nat × Nat × Option Nat) :=
  match l with
  | '@' :: '@' :: r1 =>
    let (sp1, r2) := takeSpaces r1
    if sp1 = 0 then none
    else
      match r2 with
      | '-' :: r3 =>
        let (d1, r4) := takeDigits r3
        if d1 = [] then none
        else
          let (g2, r5) := takeOptCount r4
          let (sp2, r6) := takeSpaces r5
          if sp2 = 0 then none
          else
            match r6 with
            | '+' :: r7 =>
              let (d3, r8) := takeDigits r7
              if d3 = [] then none
              else
                let (g4, r9) := takeOptCount r8
                let (sp3, r10) := takeSpaces r9
                if sp3 = 0 then none
                else
                  match r10 with
                  | ['@', '@'] => some (digitsToNat d1, g2, digitsToNat d3, g4)
                  | ['@', '@', '\n'] => some (digitsToNat d1, g2, digitsToNat d3, g4)
                  | _ => none
            | _ => none
      | _ => none
  | _ => none

/-! ### `diffutils/api.py`: parse_unified_diff -/

/-- The mutable local state of `api.parse_unified_diff`. -/
structure ParseState where
  inPrelude : Bool
  rawChunk : List String
  acc : List Delta
  chunkOffset : Option Int
  oldLn : Int
  newLn : Int
  expOrig : Option Int
  expRev : Option Int
deriving Repr

/-- The tag-splitting loop of `process_chunk`: `' '` lines go to both sides,
`'+'` to revised, `'-'` to original; anything else is an AssertionError. -/
def splitChunkLoop :
    List String → List PyVal → List PyVal → Except PyErr (List PyVal × List PyVal)
  | [], o, r => .ok (o, r)
  | line :: rest, o, r =>
    match line.data with
    | [] => .error .assertionError
    | c :: cs =>
      let restStr : String := ⟨cs⟩
      if c = ' ' then splitChunkLoop rest (o ++ [.vs restStr]) (r ++ [.vs restStr])
      else if c = '+' then splitChunkLoop rest o (r ++ [.vs restStr])
      else if c = '-' then splitChunkLoop rest (o ++ [.vs restStr]) r
      else .error .assertionError

/-- One count validation of `process_chunk` (strict mode reports a
PatchFormatError citing the line before the chunk; lenient mode warns and
continues).  The inner `assert str(expected) != str(actual)` can only fire for
equal string forms, which distinct integers never have. -/
def checkCount (lenient : Bool) (text : List String) (offset : Int)
    (expected actual : Int) (what : String) : Except PyErr Unit :=
  if expected = actual then .ok ()
  else if toString expected = toString actual then .error .assertionError
  else if lenient then .ok ()
  else do
    let line ← pyGetIdx text (offset - 2)
    .error (.formatError
      ("Expected " ++ toString expected ++ " " ++ what ++ " lines, but got " ++
        toString actual)
      (offset - 1) line)

/-- `process_chunk` of `api.parse_unified_diff`: asserts the offset and the
expected counts are set, splits the body, validates the counts, then runs the
engine's chunk diff at `(old_ln - 1, new_ln - 1)` and appends the resulting
deltas. -/
def processChunk (lenient : Bool) (text : List String) (st : ParseState) :
    Except PyErr ParseState := do
  match st.chunkOffset with
  | none => .error .assertionError
  | some offset =>
    match st.expOrig, st.expRev with
    | some eo, some er => do
      let (ol, rl) ← splitChunkLoop st.rawChunk [] []
      checkCount lenient text offset eo (ol.length : Int) "original"
      checkCount lenient text offset er (rl.length : Int) "revised"
      let ds ← engineDiffChunks ⟨st.oldLn - 1, ol⟩ ⟨st.newLn - 1, rl⟩
      .ok { st with rawChunk := [], acc := st.acc ++ ds }
    | _, _ => .error .assertionError

/-- One iteration of the main line loop of `api.parse_unified_diff`. -/
def parseLine (lenient : Bool) (text : List String) (st : ParseState)
    (index : Nat) (line : String) : Except PyErr ParseState := do
  let lineNumber : Int := (index : Int) + 1
  if ¬ lenient ∧ strHasNl line then
    .error (.formatError "Line contained newline" lineNumber line)
  else if st.inPrelude then
    if startsWithPluses line then .ok { st with inPrelude := false } else .ok st
  else
    match matchHunkHeaderCore line.data with
    | some (g1, g2, g3, g4) => do
      let st ←
        if st.rawChunk ≠ [] then do
          let st' ← processChunk lenient text st
          pure { st' with chunkOffset := none }
        else pure st
      let oldLn : Int := (g1 : Int)
      let eo : Int ←
        match g2 with
        | none => .error .typeError
        | some v => pure (v : Int)
      let newLn : Int := (g3 : Int)
      let er : Int ←
        match g4 with
        | none => .error .typeError
        | some v => pure (v : Int)
      let oldLn := if oldLn = 0 then oldLn + 1 else oldLn
      let newLn := if newLn = 0 then newLn + 1 else newLn
      .ok { st with oldLn := oldLn, newLn := newLn,
                    expOrig := some eo, expRev := some er }
    | none => do
      let st ←
        if st.rawChunk = [] then
          match st.chunkOffset with
          | some _ => .error .assertionError
          | none => pure { st with chunkOffset := some lineNumber }
        else pure st
      if line ≠ "" then
        match line.data with
        | c :: _ =>
          if c = ' ' ∨ c = '+' ∨ c = '-' then
            .ok { st with rawChunk := st.rawChunk ++ [line] }
          else if lenient then .ok st
          else .error (.formatError ("Invalid tag " ++ String.mk [c]) lineNumber line)
        | [] => .ok st
      else .ok { st with rawChunk := st.rawChunk ++ [" "] }

/-- The enumerated line loop. -/
def parseLoop (lenient : Bool) (text : List String) :
    Nat → List String → ParseState → Except PyErr ParseState
  | _, [], st => .ok st
  | index, line :: rest, st => do
    let st' ← parseLine lenient text st index line
    parseLoop lenient text (index + 1) rest st'

/-- `api.parse_unified_diff` (for input already split into lines): skip the
prelude up to and including the first `+++` line, accumulate hunks, finalize
each on the next header, and unconditionally finalize once more at the end. -/
def parseUnifiedDiff (text : List String) (lenient : Bool) : Except PyErr Patch := do
  let st0 : ParseState :=
    { inPrelude := true, rawChunk := [], acc := [], chunkOffset := none,
      oldLn := 0, newLn := 0, expOrig := none, expRev := none }
  let st ← parseLoop lenient text 0 text st0
  let st' ← processChunk lenient text st
  .ok ⟨.lst st'.acc⟩

/-! ### `diffutils/output.py` -/

/-- Python `s.endswith('\n')`. -/
def strEndsWithNl (s : String) : Bool :=
  match s.data.getLast? with
  | some '\n' => true
  | _ => false

/-- `UnifiedDiffOutput._write`: prefix, then the line, then a newline unless
the line already ends with one.  Writing a non-string raises TypeError. -/
def udWrite (buf : String) (pre : String) (line : PyVal) : Except PyErr String :=
  match line with
  | .vs s => .ok (buf ++ pre ++ s ++ (if strEndsWithNl s then "" else "\n"))
  | .vi _ => .error .typeError

/-- `UnifiedDiffOutput.add_delta_text`: original lines as `-`, revised as `+`. -/
def udAddDeltaText (buf : String) (d : Delta) : Except PyErr String := do
  let buf1 ← d.original.lines.foldlM (fun b line => udWrite b "-" line) buf
  d.revised.lines.foldlM (fun b line => udWrite b "+" line) buf1

/-- Emit `original_lines[idx]` as a context line for each index. -/
def udContextFold (originalLines : List PyVal) (idxs : List Int) (buf : String) :
    Except PyErr String :=
  idxs.foldlM
    (fun b idx => do
      let line ← pyGetIdx originalLines idx
      udWrite b " " line)
    buf

/-- Python `str.splitlines(True)` (for `\n`, `\r\n` and `\r`; the strings
emitted here contain no other line separators). -/
def splitKeepLoop : List Char → List Char → List String
  | [], accCur => if accCur = [] then [] else [⟨accCur.reverse⟩]
  | '\r' :: '\n' :: rest, accCur => (⟨('\n' :: '\r' :: accCur).reverse⟩ : String) :: splitKeepLoop rest []
  | '\n' :: rest, accCur => (⟨('\n' :: accCur).reverse⟩ : String) :: splitKeepLoop rest []
  | '\r' :: rest, accCur => (⟨('\r' :: accCur).reverse⟩ : String) :: splitKeepLoop rest []
  | c :: rest, accCur => splitKeepLoop rest (c :: accCur)

def pySplitlinesKeep (s : String) : List String :=
  splitKeepLoop s.data []

/-- `output.process_deltas`: emit one hunk for a batch of deltas.  Note two
source quirks kept as written: `revised_start` is computed from
`delta.original.position`, and inside the multi-delta loop the running totals
add the sizes of `delta` (the previous delta) after writing `next_delta`'s
text. -/
def process_deltas (originalLines : List PyVal) (deltas : List Delta)
    (contextSize : Int) : Except PyErr (List String) := do
  match deltas with
  | [] => .error .indexError
  | delta0 :: rest => do
    let os0 : Int := delta0.original.position + 1 - contextSize
    let originalStart := if os0 < 1 then 1 else os0
    let rs0 : Int := delta0.original.position + 1 - contextSize
    let revisedStart := if rs0 < 1 then 1 else rs0
    let cs0 : Int := delta0.original.position - contextSize
    let contextStart := if cs0 < 0 then 0 else cs0
    let preIdxs := intRange contextStart delta0.original.position
    let buf ← udContextFold originalLines preIdxs ""
    let buf ← udAddDeltaText buf delta0
    let ot1 : Int := (preIdxs.length : Int) + (delta0.original.lines.length : Int)
    let rt1 : Int := (preIdxs.length : Int) + (delta0.revised.lines.length : Int)
    let res ← rest.foldlM
      (fun (acc : Delta × String × Int × Int) nextDelta => do
        let (delta, buf, ot, rt) := acc
        let intermediateStart : Int :=
          delta.original.position + (delta.original.lines.length : Int)
        let midIdxs := intRange intermediateStart nextDelta.original.position
        let buf ← udContextFold originalLines midIdxs buf
        let buf ← udAddDeltaText buf nextDelta
        let ot := ot + (midIdxs.length : Int) + (delta.original.lines.length : Int)
        let rt := rt + (midIdxs.length : Int) + (delta.revised.lines.length : Int)
        pure (nextDelta, buf, ot, rt))
      (delta0, buf, ot1, rt1)
    let (deltaN, buf, ot, rt) := res
    let tailStart : Int :=
      deltaN.original.position + (deltaN.original.lines.length : Int)
    let tailEnd : Int := min (tailStart + contextSize) (originalLines.length : Int)
    let tailIdxs := intRange tailStart tailEnd
    let buf ← udContextFold originalLines tailIdxs buf
    let ot := ot + (tailIdxs.length : Int)
    let rt := rt + (tailIdxs.length : Int)
    let header :=
      "@@ -" ++ toString originalStart ++ "," ++ toString ot ++ " +" ++
        toString revisedStart ++ "," ++ toString rt ++ " @@\n"
    .ok (header :: pySplitlinesKeep buf)

/-- The `patch.get_deltas()` call of `output.generate_unified_diff`:
`core.Patch` declares `__slots__ = "_deltas"` and exposes the deltas only
through the `deltas` property - there is no `get_deltas` method, so the call
raises AttributeError. -/
def patchGetDeltas (patch : Patch) : Except PyErr (List Delta) :=
  .error .attributeError

/-- `output.generate_unified_diff`: `---`/`+++` file headers, then hunks for
batches of nearby deltas.  Its first step, `deltas = patch.get_deltas()`,
raises AttributeError (see `patchGetDeltas`) before the empty-patch test and
before any output line is built. -/
def generateUnifiedDiff (originalFile revisedFile : String)
    (originalLines : List PyVal) (patch : Patch) (contextSize : Int) :
    Except PyErr (List String) := do
  let deltas ← patchGetDeltas patch
  match deltas with
  | [] => .ok []
  | d0 :: rest => do
    let res ← rest.foldlM
      (fun (acc : Delta × List Delta × List String) nextDelta => do
        let (delta, batch, result) := acc
        let position := delta.original.position
        if position + (delta.original.lines.length : Int) + contextSize ≥
            nextDelta.original.position - contextSize then
          pure (nextDelta, batch ++ [nextDelta], result)
        else do
          let hunk ← process_deltas originalLines batch contextSize
          pure (nextDelta, [nextDelta], result ++ hunk))
      (d0, [d0], ([] : List String))
    let (_, lastBatch, midResult) := res
    let lastHunk ← process_deltas originalLines lastBatch contextSize
    .ok (["---" ++ originalFile, "+++" ++ revisedFile] ++ midResult ++ lastHunk)

/-! ### Statement vocabulary (definitions used only to state properties) -/

def Delta.origStart (d : Delta) : Int := d.original.position

def Delta.origEnd (d : Delta) : Int :=
  d.original.position + (d.original.lines.length : Int)

def Delta.revStart (d : Delta) : Int := d.revised.position

def Delta.revEnd (d : Delta) : Int :=
  d.revised.position + (d.revised.lines.length : Int)

/-- Consecutive deltas whose ranges are strictly increasing and
non-overlapping, both on the original side and on the revised side
(claim C5). -/
def RangesAsc (d e : Delta) : Prop :=
  d.origStart < e.origStart ∧ d.origEnd ≤ e.origStart ∧
    d.revStart < e.revStart ∧ d.revEnd ≤ e.revStart

/-- The total number of deleted plus inserted elements of a patch
(claim C2). -/
def patchTotalEditSize (p : Patch) : Nat :=
  (p.readDeltas.1.map (fun d => d.original.lines.length + d.revised.lines.length)).sum

/-- `EditSeq A B n`: A can be transformed into B by an edit script performing
`n` deletions plus insertions (keeps are free).  The Myers edit distance of
`(A, B)` is the least such `n`. -/
inductive EditSeq : List PyVal → List PyVal → Nat → Prop
  | nil : EditSeq [] [] 0
  | keep (x : PyVal) {A B : List PyVal} {n : Nat} :
      EditSeq A B n → EditSeq (x :: A) (x :: B) n
  | del (x : PyVal) {A B : List PyVal} {n : Nat} :
      EditSeq A B n → EditSeq (x :: A) B (n + 1)
  | ins (y : PyVal) {A B : List PyVal} {n : Nat} :
      EditSeq A B n → EditSeq A (y :: B) (n + 1)

/-- Patches reachable through the public `Patch` API: a fresh patch, followed
by any interleaving of `add_delta` calls and reads of the `deltas` property. -/
inductive PatchReachable : Patch → Prop
  | empty : PatchReachable ⟨.lst []⟩
  | add {p : Patch} (d : Delta) : PatchReachable p → PatchReachable (p.add_delta d)
  | read {p : Patch} : PatchReachable p → PatchReachable p.readDeltas.2

/-- Count the body lines of a hunk whose tag is one of the given characters
(claim C7). -/
def tagCount (tags : List Char) (bodyLines : List String) : Nat :=
  (bodyLines.filter (fun l =>
    match l.data with
    | c :: _ => tags.contains c
    | [] => false)).length

/-- The bootstrap node `create_snake(0, -1, None)` of `build_path`. -/
def bootNode : PathNode := .snake 0 (-1) none

/-- The phase-0 diff node `create_diff_node(0, 0, bootstrap)`. -/
def d1node : PathNode := .dnode 0 0 (some bootNode) (some bootNode)

/-- The terminal node `build_path(A, A)` returns: the phase-0 node, wrapped in
a snake spanning the whole diagonal when A is nonempty. -/
def pathSelf (A : List PyVal) : PathNode :=
  if A.length = 0 then d1node
  else .snake (A.length : Int) (A.length : Int) (some d1node)

end DU

deriving instance DecidableEq for Except

namespace DU

/-! ### Concrete patches used by several theorems -/

/-- The one-change patch between `["x","a"]` and `["x","b"]`, built directly
(as `add_delta` or the parser would build it; `myers.diff` itself raises
TypeError before it can return this patch). -/
def changePatchXA : Patch :=
  ⟨.lst [⟨.change, ⟨1, [PyVal.vs "a"]⟩, ⟨1, [PyVal.vs "b"]⟩⟩]⟩

/-- A two-delta patch whose deltas have different sizes, batched into one
hunk at context size 1. -/
def twoDeltaPatch : Patch :=
  ⟨.lst [⟨.delete, ⟨1, [PyVal.vs "b"]⟩, ⟨1, []⟩⟩,
         ⟨.insert, ⟨3, []⟩, ⟨2, [PyVal.vs "X", PyVal.vs "Y"]⟩⟩]⟩

def c10delta : Delta := ⟨.change, ⟨0, [PyVal.vs "a"]⟩, ⟨0, [PyVal.vs "b"]⟩⟩

/-- The single change delta of C5's concrete engine run. -/
def c5delta : Delta := ⟨.change, ⟨1, [PyVal.vs "x"]⟩, ⟨1, [PyVal.vs "y"]⟩⟩

/-! ### Claim theorems settled by evaluation -/

/-- Any edit script between distinct singletons performs at least two
deletions plus insertions. -/
theorem editSeq_singleton_ne {x y : PyVal} (hxy : x ≠ y) :
    ∀ n, EditSeq [x] [y] n → 2 ≤ n := by
  intro n h
  cases h with
  | keep _ h' => exact absurd rfl hxy
  | del _ h' =>
    cases h' with
    | ins _ h'' => cases h''; omega
  | ins _ h' =>
    cases h' with
    | del _ h'' => cases h''; omega

/-- C1 (code bug): `diff(["a"], ["b"])` returns an EMPTY patch - the
backtrack in `build_revision` stops as soon as the predecessor is the
bootstrap snake (`j = -1`), and `create_diff_node` links the first real diff
node's compressed `prev` to the bootstrap, so any leading delta anchored at
(0,0) is silently dropped.  Applying the returned patch to A yields A, not B,
refuting `apply(A, diff(A, B)) == B`. -/
theorem c1_diff_apply_to_bug :
    myersDiff [PyVal.vs "a"] [PyVal.vs "b"] = .ok ⟨.lst []⟩
    ∧ Patch.apply_to ⟨.lst []⟩ [PyVal.vs "a"] = .ok [PyVal.vs "a"]
    ∧ [PyVal.vs "a"] ≠ [PyVal.vs "b"] := by
  exact ⟨by decide, by decide, by decide⟩

/-- C2 (code bug): the patch `diff(["a"], ["b"])` returns carries 0 deleted
plus inserted elements, while the Myers edit distance of the pair is 2 (every
edit script needs at least one deletion and one insertion, and one of each
suffices); the dropped leading delta makes the total differ from the edit
distance. -/
theorem c2_minimality_bug :
    myersDiff [PyVal.vs "a"] [PyVal.vs "b"] = .ok ⟨.lst []⟩
    ∧ patchTotalEditSize ⟨.lst []⟩ = 0
    ∧ EditSeq [PyVal.vs "a"] [PyVal.vs "b"] 2
    ∧ (∀ n, EditSeq [PyVal.vs "a"] [PyVal.vs "b"] n → 2 ≤ n) := by
  refine ⟨by decide, by decide, EditSeq.del _ (EditSeq.ins _ EditSeq.nil),
    fun n h => editSeq_singleton_ne (by decide) n h⟩

/-- Witness for the universally quantified conjunct of `c2_minimality_bug`. -/
theorem c2_minimality_bug_witness : 2 ≤ 2 :=
  c2_minimality_bug.2.2.2 2 (EditSeq.del _ (EditSeq.ins _ EditSeq.nil))

/-- C3 (code bug): `restore(B, diff(A, B)) == A` fails at
`A = ["x","a"], B = ["x","b"]` twice over.  `diff(A, B)` itself raises
TypeError (the `original_chunk.size()` call on the `size` property) the one
time its emission loop body runs, so no patch is returned at all; and even
given the intended one-change patch built directly, `restore` raises
ValueError instead of returning A - `ChangeDelta.restore` executes
`target.remove(i)`, removing the first occurrence of the integer VALUE of the
loop counter (the Java original removes at an index), which is not present in
a list of strings - while `apply_to` with the same patch succeeds. -/
theorem c3_restore_bug :
    myersDiff [PyVal.vs "x", PyVal.vs "a"] [PyVal.vs "x", PyVal.vs "b"]
      = .error .typeError
    ∧ Patch.apply_to changePatchXA [PyVal.vs "x", PyVal.vs "a"]
      = .ok [PyVal.vs "x", PyVal.vs "b"]
    ∧ Patch.restore changePatchXA [PyVal.vs "x", PyVal.vs "b"]
      = .error (.valueError "list.remove: x not in list") := by
  exact ⟨by decide, by decide, by decide⟩

/-- C4 (code bug): `parse(emit(P, A, C)) == P` fails because `emit` cannot
run at all: `generate_unified_diff` begins with `deltas = patch.get_deltas()`
and `core.Patch` has no `get_deltas` method (only the `deltas` property), so
the emitter raises AttributeError for EVERY patch, file pair, original text
and context size, before emitting a single line - there is never a text to
parse back.  And on the diff side, `diff(A, B)` for the differing pair raises
TypeError (the `size()` property call) rather than producing a patch P to
round-trip. -/
theorem c4_unified_roundtrip_bug :
    (∀ (f g : String) (A : List PyVal) (p : Patch) (c : Int),
      generateUnifiedDiff f g A p c = .error .attributeError)
    ∧ myersDiff [PyVal.vs "x", PyVal.vs "a"] [PyVal.vs "x", PyVal.vs "b"]
      = .error .typeError := by
  exact ⟨fun f g A p c => rfl, by decide⟩

/-- C6 (code bug): a change delta whose anchor's last index equals the target
length passes the `last() > len(target)` guard of `Chunk.verify` (the Java
original compares against `len - 1`), and the content loop then raises a raw
IndexError rather than the patch-does-not-apply error; and `restore` performs
no verification at all - `InsertDelta.restore` executes
`target.remove(position)`, removing the first occurrence of the integer VALUE
`position`, which raises ValueError on a list of strings. -/
theorem c6_error_kind_bug :
    Patch.apply_to ⟨.lst [⟨.change, ⟨1, [PyVal.vs "x"]⟩, ⟨1, [PyVal.vs "y"]⟩⟩]⟩
        [PyVal.vs "a"]
      = .error .indexError
    ∧ Patch.restore ⟨.lst [⟨.insert, ⟨0, []⟩, ⟨0, [PyVal.vs "x"]⟩⟩]⟩
        [PyVal.vs "y"]
      = .error (.valueError "list.remove: x not in list") := by
  exact ⟨by decide, by decide⟩

/-- C7 (code bug): `generate_unified_diff` never emits a hunk at all (its
first step raises AttributeError, see C4), and the hunk builder it delegates
to, `process_deltas`, computes header counts that disagree with the body it
writes: inside its multi-delta loop the running totals add the sizes of
`delta` (the PREVIOUS delta) after writing `next_delta`'s text.  On a batch
of two deltas of different sizes the header claims 5 original and 3 revised
lines while the body holds 4 lines tagged space-or-minus and 5 tagged
space-or-plus. -/
theorem c7_header_counts_bug :
    generateUnifiedDiff "a" "b"
        [PyVal.vs "a", PyVal.vs "b", PyVal.vs "c", PyVal.vs "d", PyVal.vs "e"]
        twoDeltaPatch 1
      = .error .attributeError
    ∧ process_deltas
        [PyVal.vs "a", PyVal.vs "b", PyVal.vs "c", PyVal.vs "d", PyVal.vs "e"]
        twoDeltaPatch.readDeltas.1 1
      = .ok ["@@ -1,5 +1,3 @@\n",
             " a\n", "-b\n", " c\n", "+X\n", "+Y\n", " d\n"]
    ∧ tagCount [' ', '-'] [" a\n", "-b\n", " c\n", "+X\n", "+Y\n", " d\n"] = 4
    ∧ tagCount [' ', '+'] [" a\n", "-b\n", " c\n", "+X\n", "+Y\n", " d\n"] = 5
    ∧ ¬ (tagCount [' ', '-'] [" a\n", "-b\n", " c\n", "+X\n", "+Y\n", " d\n"] = 5
         ∧ tagCount [' ', '+'] [" a\n", "-b\n", " c\n", "+X\n", "+Y\n", " d\n"] = 3) := by
  exact ⟨by decide, by decide, by decide, by decide, by decide⟩

/-- C8 (code bug): on a hunk header with omitted counts (`@@ -3 +4 @@`) the
parser raises TypeError instead of defaulting the counts to 1: the
None-defaulting checks are applied to regex groups 1 and 3 (the mandatory
start lines) while `int(match.group(2))` / `int(match.group(4))` are called
unconditionally on the optional count groups. -/
theorem c8_omitted_count_bug :
    parseUnifiedDiff ["--- a", "+++ b", "@@ -3 +4 @@", "-x", "+y"] false
      = .error .typeError := by
  decide

/-- C10 (confirmed): `Patch.__eq__` compares the internal container, which is
a list before the first read of `deltas` and a tuple afterwards, and a Python
list never equals a tuple.  Two patches holding the same delta in the same
order compare unequal when one has been read and the other has not, and
reading `p.deltas` flips the result of `p == q`. -/
theorem c10_representation_equality :
    Patch.pyEq (Patch.add_delta Patch.empty c10delta)
        ((Patch.add_delta Patch.empty c10delta).readDeltas.2) = false
    ∧ (Patch.add_delta Patch.empty c10delta).readDeltas.1
        = ((Patch.add_delta Patch.empty c10delta).readDeltas.2).readDeltas.1
    ∧ Patch.pyEq ((Patch.add_delta Patch.empty c10delta).readDeltas.2)
        ((Patch.add_delta Patch.empty c10delta).readDeltas.2) = true
    ∧ Patch.pyEq (Patch.add_delta Patch.empty c10delta)
        (Patch.add_delta Patch.empty c10delta) = true := by
  exact ⟨by decide, by decide, by decide, by decide⟩

/-- C9 (counterexample): at `A = ["a"]` the top-level `diff(A, A)` does not
return a patch at all - `api.diff` turns the engine's empty patch into
`None`. -/
theorem c9_apidiff_none_cex :
    ¬ ∃ p : Patch, apiDiff [PyVal.vs "a"] [PyVal.vs "a"] = .ok (some p) := by
  intro ⟨p, h⟩
  have h0 : apiDiff [PyVal.vs "a"] [PyVal.vs "a"] = .ok none := by decide
  rw [h0] at h
  simp at h

/-! ### Evaluation lemmas for claims C5 and C9 -/

theorem get?_set_self {α : Type} : ∀ (l : List α) (t : Nat) (v : α), t < l.length →
    (l.set t v).get? t = some v
  | [], t, v, h => absurd h (by simp)
  | x :: xs, 0, v, _ => rfl
  | x :: xs, t+1, v, h => get?_set_self xs t v (by simpa using h)

theorem get?_set_ne {α : Type} : ∀ (l : List α) (t s : Nat) (v : α), t ≠ s →
    (l.set t v).get? s = l.get? s
  | [], _, _, _, _ => rfl
  | x :: xs, 0, 0, v, h => absurd rfl h
  | x :: xs, 0, s+1, v, _ => rfl
  | x :: xs, t+1, 0, v, _ => rfl
  | x :: xs, t+1, s+1, v, h => get?_set_ne xs t s v (fun hh => h (by omega))

theorem get?_replicate {α : Type} : ∀ (n t : Nat) (a : α), t < n →
    (List.replicate n a).get? t = some a
  | 0, _, _, h => absurd h (by omega)
  | n+1, 0, a, _ => rfl
  | n+1, t+1, a, h => get?_replicate n t a (by omega)

theorem get?_lt {α : Type} (l : List α) (t : Nat) (h : t < l.length) :
    ∃ v, l.get? t = some v :=
  ⟨l.get ⟨t, h⟩, List.get?_eq_get h⟩

theorem bindOk {ε α β : Type} (a : α) (f : α → Except ε β) :
    (Except.ok a : Except ε α) >>= f = f a := rfl

theorem setEntry_eval (diag : List (Option PathNode)) (idx : Int) (v : Option PathNode)
    (h0 : 0 ≤ idx) (h1 : idx < (diag.length : Int)) :
    setEntry diag idx v = .ok (diag.set idx.toNat v) := by
  unfold setEntry pyResolveIdx
  rw [if_pos ⟨h0, h1⟩]

theorem getEntry_eval (diag : List (Option PathNode)) (idx : Int) (e : Option PathNode)
    (h0 : 0 ≤ idx) (h1 : idx < (diag.length : Int))
    (h2 : diag.get? idx.toNat = some e) :
    getEntry diag idx = .ok e := by
  unfold getEntry pyResolveIdx
  rw [if_pos ⟨h0, h1⟩]
  show (match diag.get? idx.toNat with
        | some e => (Except.ok e : Except PyErr (Option PathNode))
        | none => .error .indexError) = .ok e
  rw [h2]

theorem getNode_eval (diag : List (Option PathNode)) (idx : Int) (n : PathNode)
    (h0 : 0 ≤ idx) (h1 : idx < (diag.length : Int))
    (h2 : diag.get? idx.toNat = some (some n)) :
    getNode diag idx = .ok n := by
  unfold getNode
  rw [getEntry_eval diag idx (some n) h0 h1 h2]
  rfl

theorem pyGetIdx_nat {α : Type} (l : List α) (t : Nat) (v : α) (hlt : t < l.length)
    (h : l.get? t = some v) : pyGetIdx l (t : Int) = .ok v := by
  unfold pyGetIdx pyResolveIdx
  rw [if_pos ⟨by omega, by exact_mod_cast hlt⟩]
  have ht : ((t : Int)).toNat = t := by omega
  rw [ht]
  show (match l.get? t with
        | some v => (Except.ok v : Except PyErr α)
        | none => .error .indexError) = .ok v
  rw [h]

theorem snakeExtend_self (A : List PyVal) :
    ∀ (fuel i : Nat), i ≤ A.length → A.length - i < fuel →
      snakeExtendF A A fuel (i : Int) (i : Int) =
        .ok ((A.length : Int), (A.length : Int)) := by
  intro fuel
  induction fuel with
  | zero => intro i hle h; omega
  | succ f ih =>
    intro i hle h
    unfold snakeExtendF
    by_cases hi : i < A.length
    · rw [if_pos ⟨by exact_mod_cast hi, by exact_mod_cast hi⟩]
      obtain ⟨v, hv⟩ := get?_lt A i hi
      rw [pyGetIdx_nat A i v hi hv, bindOk, bindOk, if_pos rfl]
      have hc : ((i : Int) + 1) = ((i + 1 : Nat) : Int) := by push_cast; ring
      rw [hc]
      exact ih (i + 1) (by omega) (by omega)
    · have hiA : i = A.length := Nat.le_antisymm hle (Nat.le_of_not_lt hi)
      subst hiA
      rw [if_neg (by omega)]

theorem bindPure {ε α β : Type} (a : α) (f : α → Except ε β) :
    (pure a : Except ε α) >>= f = f a := rfl

theorem kstep0_self (A : List PyVal) :
    ∃ dg, kstep A A (2 * A.length + 1) 0 0
      ((List.replicate (1 + 2 * (A.length + A.length + 1)) (none : Option PathNode)).set
        (2 * A.length + 2) (some (create_snake 0 (-1) none)))
      = .ok (dg, some (pathSelf A)) := by
  have hsnake := snakeExtend_self A (A.length + A.length + 2) 0 (by omega) (by omega)
  simp only [Nat.cast_zero] at hsnake
  have hgn : getNode
      ((List.replicate (1 + 2 * (A.length + A.length + 1)) (none : Option PathNode)).set
        (2 * A.length + 2) (some (create_snake 0 (-1) none)))
      ((((2 * A.length + 1 : Nat)) : Int) + 0 + 1) = .ok (create_snake 0 (-1) none) := by
    apply getNode_eval
    · omega
    · simp only [List.length_set, List.length_replicate]; push_cast; omega
    · rw [show ((((2 * A.length + 1 : Nat)) : Int) + 0 + 1).toNat = 2 * A.length + 2 by omega]
      exact get?_set_self _ _ _ (by simp only [List.length_replicate]; omega)
  have hse1 : setEntry
      ((List.replicate (1 + 2 * (A.length + A.length + 1)) (none : Option PathNode)).set
        (2 * A.length + 2) (some (create_snake 0 (-1) none)))
      ((((2 * A.length + 1 : Nat)) : Int) + 0 - 1) none
      = .ok (((List.replicate (1 + 2 * (A.length + A.length + 1)) (none : Option PathNode)).set
        (2 * A.length + 2) (some (create_snake 0 (-1) none))).set (2 * A.length) none) := by
    rw [setEntry_eval _ _ _ (by omega)
      (by simp only [List.length_set, List.length_replicate]; push_cast; omega)]
    rw [show ((((2 * A.length + 1 : Nat)) : Int) + 0 - 1).toNat = 2 * A.length by omega]
  have hse2 : ∀ X : PathNode, setEntry
      ((((List.replicate (1 + 2 * (A.length + A.length + 1)) (none : Option PathNode)).set
        (2 * A.length + 2) (some (PathNode.snake 0 (-1) none))).set (2 * A.length) none))
      ((((2 * A.length + 1 : Nat)) : Int) + 0) (some X)
      = .ok (((((List.replicate (1 + 2 * (A.length + A.length + 1)) (none : Option PathNode)).set
        (2 * A.length + 2) (some (PathNode.snake 0 (-1) none))).set (2 * A.length) none)).set
          (2 * A.length + 1) (some X)) := by
    intro X
    rw [setEntry_eval _ _ _ (by omega)
      (by simp only [List.length_set, List.length_replicate]; push_cast; omega)]
    rw [show ((((2 * A.length + 1 : Nat)) : Int) + 0).toNat = 2 * A.length + 1 by omega]
  simp only [kstep]
  rw [if_pos (show (0:Int) = -((0:Nat):Int) by norm_num)]
  simp only [bindPure, eq_self_iff_true, if_true]
  rw [hgn]
  simp only [bindOk, bindPure]
  simp only [create_snake] at hse1 ⊢
  simp only [PathNode.i, sub_zero]
  rw [hse1]
  simp only [bindOk]
  rw [show create_diff_node 0 0 (.snake 0 (-1) none)
      = .ok (.dnode 0 0 (some (.snake 0 (-1) none)) (some (.snake 0 (-1) none))) from rfl]
  simp only [bindOk]
  rw [hsnake]
  simp only [bindOk, PathNode.i]
  by_cases hA : A.length = 0
  · rw [if_neg (show ¬ ((0:Int) < (A.length : Int)) by omega)]
    rw [hse2 _]
    simp only [bindOk]
    rw [if_pos ⟨le_refl _, le_refl _⟩]
    unfold pathSelf
    rw [if_pos hA]
    unfold d1node bootNode
    exact ⟨_, rfl⟩
  · rw [if_pos (show (0:Int) < (A.length : Int) by omega)]
    rw [hse2 _]
    simp only [bindOk]
    rw [if_pos ⟨le_refl _, le_refl _⟩]
    unfold pathSelf
    rw [if_neg hA]
    unfold d1node bootNode
    exact ⟨_, rfl⟩

theorem build_path_self (A : List PyVal) : build_path A A = .ok (pathSelf A) := by
  simp only [build_path]
  have hmid : (1 + 2 * (A.length + A.length + 1)) / 2 = 2 * A.length + 1 := by omega
  rw [hmid]
  rw [setEntry_eval _ _ _ (by omega)
    (by simp only [List.length_replicate]; push_cast; omega)]
  have htn : (((2 * A.length + 1 : Nat) : Int) + 1).toNat = 2 * A.length + 2 := by omega
  rw [htn, bindOk]
  obtain ⟨dg, hk⟩ := kstep0_self A
  simp only [dloopF, Nat.cast_zero, neg_zero]
  simp only [kloopF, Nat.cast_zero]
  simp only [create_snake] at hk ⊢
  rw [hk]
  rfl

theorem bindErr {ε α β : Type} (e : ε) (f : α → Except ε β) :
    (Except.error e : Except ε α) >>= f = .error e := rfl

theorem bind_ok_inv {ε α β : Type} {x : Except ε α} {f : α → Except ε β} {b : β}
    (h : x >>= f = .ok b) : ∃ a, x = .ok a ∧ f a = .ok b := by
  cases x with
  | error e => rw [bindErr] at h; cases h
  | ok a => rw [bindOk] at h; exact ⟨a, rfl, h⟩

theorem brLoopF_ok_eq {A B : List PyVal} (fuel : Nat) (cur : Option PathNode)
    (acc L : List Delta) (h : brLoopF A B fuel cur acc = .ok L) : L = acc := by
  match cur with
  | none => unfold brLoopF at h; injection h with h; exact h.symm
  | some (.snake _ _ none) => unfold brLoopF at h; injection h with h; exact h.symm
  | some (.dnode _ _ none _) => unfold brLoopF at h; injection h with h; exact h.symm
  | some (.snake _ _ (some pv)) =>
    unfold brLoopF at h
    split at h
    · injection h with h; exact h.symm
    · cases h
  | some (.dnode i j (some pv) ls) =>
    unfold brLoopF at h
    split at h
    · injection h with h; exact h.symm
    · cases fuel with
      | zero => cases h
      | succ f =>
        simp only [classifyDelta, bindErr] at h
        cases h

theorem myersDiff_ok_empty {A B : List PyVal} {p : Patch}
    (h : myersDiff A B = .ok p) : p = ⟨.lst []⟩ := by
  unfold myersDiff at h
  obtain ⟨path, hpath, h⟩ := bind_ok_inv h
  unfold build_revision at h
  try simp only [] at h
  obtain ⟨L, hL, h⟩ := bind_ok_inv h
  have hnil := brLoopF_ok_eq (path.depth + 1) _ [] L hL
  subst hnil
  injection h with h
  exact h.symm

theorem reachable_rep {p : Patch} (h : PatchReachable p) :
    (∃ l, p = ⟨.lst l⟩) ∨ (∃ l, p = ⟨.tup l⟩ ∧ List.Pairwise sortKeyLE l) := by
  induction h with
  | empty => exact .inl ⟨[], rfl⟩
  | add d hp ih =>
    rcases ih with ⟨l, hl⟩ | ⟨l, hl, _⟩ <;> subst hl <;> exact .inl ⟨_, rfl⟩
  | read hp ih =>
    rcases ih with ⟨l, hl⟩ | ⟨l, hl, hs⟩
    · subst hl
      exact .inr ⟨List.insertionSort sortKeyLE l, rfl,
        List.sorted_insertionSort sortKeyLE l⟩
    · subst hl
      exact .inr ⟨l, rfl, hs⟩

theorem reachable_readDeltas_sorted {p : Patch} (h : PatchReachable p) :
    List.Pairwise sortKeyLE p.readDeltas.1 := by
  rcases reachable_rep h with ⟨l, hl⟩ | ⟨l, hl, hs⟩ <;> subst hl
  · exact List.sorted_insertionSort sortKeyLE l
  · exact hs

theorem build_revision_self (A B : List PyVal) :
    build_revision (pathSelf A) A B = .ok ⟨.lst []⟩ := by
  unfold pathSelf
  by_cases h : A.length = 0
  · rw [if_pos h]; rfl
  · rw [if_neg h]; rfl

theorem myersDiff_self (A : List PyVal) : myersDiff A A = .ok ⟨.lst []⟩ := by
  unfold myersDiff
  rw [build_path_self, bindOk, build_revision_self]

theorem emptyPatch_apply_to (A : List PyVal) :
    Patch.apply_to ⟨.lst []⟩ A = .ok A := rfl

theorem apiDiff_self (A : List PyVal) : apiDiff A A = .ok none := by
  unfold apiDiff
  rw [myersDiff_self, bindOk]
  rfl

/-- **C5.** The `deltas` accessor of any patch built through the public API
returns a list sorted (weakly) ascending by `original.position`, whatever the
insertion order; and every patch the Myers engine returns has consecutive
deltas with strictly increasing, non-overlapping original ranges and strictly
increasing revised ranges.  The second half holds because every patch the
engine successfully returns is EMPTY: the delta-classification line of
`build_revision` raises TypeError (`size()` on the `size` property) whenever
a delta would be emitted, so a successful run emits none. -/
theorem c5_deltas_sorted_ranges :
    (∀ p : Patch, PatchReachable p → List.Pairwise sortKeyLE p.readDeltas.1)
    ∧ (∀ (A B : List PyVal) (p : Patch), myersDiff A B = .ok p →
        List.Chain' RangesAsc p.readDeltas.1) :=
  ⟨fun _ h => reachable_readDeltas_sorted h,
   fun _ _ _ h => by rw [myersDiff_ok_empty h]; exact List.chain'_nil⟩

/-- Witness for C5 at concrete inputs: a one-delta patch built by `add_delta`,
and the engine output on the differing pair `(["a"], ["b"])` (the empty
patch - the only kind the engine returns). -/
theorem c5_deltas_sorted_ranges_witness :
    List.Pairwise sortKeyLE (Patch.add_delta Patch.empty c5delta).readDeltas.1
    ∧ myersDiff [PyVal.vs "a"] [PyVal.vs "b"] = .ok ⟨.lst []⟩
    ∧ List.Chain' RangesAsc (Patch.readDeltas ⟨.lst []⟩).1 :=
  ⟨c5_deltas_sorted_ranges.1 _ (PatchReachable.add c5delta PatchReachable.empty),
   by decide,
   c5_deltas_sorted_ranges.2 [PyVal.vs "a"] [PyVal.vs "b"] ⟨.lst []⟩ (by decide)⟩

/-- **C9** (amended).  `myers.diff(A, A)` is a patch with zero deltas and
applying the empty patch to A returns A unchanged; but the top-level
`api.diff(A, A)` returns `None` rather than that patch. -/
theorem c9_empty_diff_amended (A : List PyVal) :
    myersDiff A A = .ok ⟨.lst []⟩
    ∧ Patch.apply_to ⟨.lst []⟩ A = .ok A
    ∧ apiDiff A A = .ok none :=
  ⟨myersDiff_self A, emptyPatch_apply_to A, apiDiff_self A⟩

end DU
